import Mathlib

/-!
Verification of the deploy command and deployment helpers of `convex-js`
(`src/cli/deploy.ts` and the deployment library file bundled with it).

JavaScript strings are modelled as `List Char`; every separator the code
passes to `String.prototype.split` is a single character, so splitting is
modelled by `splitOnChar`, which agrees with JavaScript's `split` on
one-character separators (in particular `"".split(s) = [""]`).
-/

/-- A JavaScript string, modelled as its list of characters. -/
abbrev Str := List Char

/-- Helper for `splitOnChar`: returns the segment before the first separator
together with the (already split) remaining segments. -/
def splitOnCharAux (sep : Char) : Str → Str × List Str
  | [] => ([], [])
  | c :: cs =>
    let r := splitOnCharAux sep cs
    if c = sep then ([], r.1 :: r.2) else (c :: r.1, r.2)

/-- JavaScript `s.split(sep)` for a one-character separator `sep`. -/
def splitOnChar (sep : Char) (l : Str) : List Str :=
  ((splitOnCharAux sep l).1) :: (splitOnCharAux sep l).2

theorem splitOnChar_ne_nil (sep : Char) (l : Str) : splitOnChar sep l ≠ [] := by
  simp [splitOnChar]

theorem splitOnCharAux_of_not_mem {sep : Char} {l : Str} (h : sep ∉ l) :
    splitOnCharAux sep l = (l, []) := by
  induction l with
  | nil => rfl
  | cons c cs ih =>
    simp only [List.mem_cons, not_or] at h
    simp [splitOnCharAux, ih h.2, Ne.symm h.1]

theorem splitOnChar_of_not_mem {sep : Char} {l : Str} (h : sep ∉ l) :
    splitOnChar sep l = [l] := by
  simp [splitOnChar, splitOnCharAux_of_not_mem h]

theorem splitOnCharAux_snd_ne_nil_of_mem {sep : Char} {l : Str} (h : sep ∈ l) :
    (splitOnCharAux sep l).2 ≠ [] := by
  induction l with
  | nil => cases h
  | cons c cs ih =>
    rcases List.mem_cons.mp h with hc | hcs
    · simp [splitOnCharAux, hc]
    · by_cases hcsep : c = sep
      · simp [splitOnCharAux, hcsep]
      · simp only [splitOnCharAux, if_neg hcsep]
        exact ih hcs

theorem splitOnChar_length_eq_one_iff (sep : Char) (l : Str) :
    (splitOnChar sep l).length = 1 ↔ sep ∉ l := by
  constructor
  · intro h hmem
    have h2 := splitOnCharAux_snd_ne_nil_of_mem hmem
    simp only [splitOnChar, List.length_cons, Nat.add_left_eq_self,
      List.length_eq_zero] at h
    exact h2 h
  · intro h
    simp [splitOnChar, splitOnCharAux_of_not_mem h]

/-- The spec's phrase "the substring before the first `sep`" (the whole
string when `sep` is absent), as a definition of its own. -/
def specSubstringBeforeFirst (sep : Char) (l : Str) : Str :=
  l.takeWhile (fun c => c != sep)

/-- The spec's phrase "the substring after the last `sep`" (the whole string
when `sep` is absent), as a definition of its own. -/
def specSubstringAfterLast (sep : Char) : Str → Str
  | [] => []
  | c :: cs =>
    if sep ∈ cs then specSubstringAfterLast sep cs
    else if c = sep then cs
    else c :: cs

theorem splitOnCharAux_fst_eq (sep : Char) (l : Str) :
    (splitOnCharAux sep l).1 = specSubstringBeforeFirst sep l := by
  induction l with
  | nil => rfl
  | cons c cs ih =>
    by_cases hc : c = sep
    · simp [splitOnCharAux, specSubstringBeforeFirst, hc]
    · simp [splitOnCharAux, specSubstringBeforeFirst, hc, List.takeWhile_cons]
      simpa [specSubstringBeforeFirst] using ih

theorem splitOnChar_headD_eq (sep : Char) (l : Str) :
    (splitOnChar sep l).headD [] = specSubstringBeforeFirst sep l := by
  simp [splitOnChar, splitOnCharAux_fst_eq]

theorem splitOnChar_getLastD_eq (sep : Char) (l : Str) :
    (splitOnChar sep l).getLastD [] = specSubstringAfterLast sep l := by
  induction l with
  | nil => rfl
  | cons c cs ih =>
    by_cases hmem : sep ∈ cs
    · have hne := splitOnCharAux_snd_ne_nil_of_mem hmem
      by_cases hc : c = sep
      · simp only [splitOnChar, splitOnCharAux, if_pos hc] at *
        simpa [specSubstringAfterLast, hmem, List.getLastD_cons] using ih
      · simp only [splitOnChar, splitOnCharAux, if_neg hc] at *
        rw [specSubstringAfterLast]
        simp only [if_pos hmem]
        rw [← ih]
        rcases hsnd : (splitOnCharAux sep cs).2 with _ | ⟨r, rs⟩
        · exact absurd hsnd hne
        · simp [List.getLastD_cons]
    · have haux := splitOnCharAux_of_not_mem hmem
      by_cases hc : c = sep
      · simp [splitOnChar, splitOnCharAux, haux, hc, specSubstringAfterLast, hmem]
      · simp [splitOnChar, splitOnCharAux, haux, hc, specSubstringAfterLast, hmem]

theorem splitOnCharAux_append_sep (sep : Char) (a b : Str) :
    splitOnCharAux sep (a ++ sep :: b) =
      ((splitOnCharAux sep a).1,
       (splitOnCharAux sep a).2 ++ splitOnChar sep b) := by
  induction a with
  | nil => simp [splitOnCharAux, splitOnChar]
  | cons c a' ih =>
    by_cases hc : c = sep <;> simp [splitOnCharAux, ih, hc]

theorem splitOnChar_append_sep (sep : Char) (a b : Str) :
    splitOnChar sep (a ++ sep :: b) = splitOnChar sep a ++ splitOnChar sep b := by
  simp [splitOnChar, splitOnCharAux_append_sep]

/-! ## AdminKeyParser (deployment library file) -/

-- Given a deployment string like "dev:tall-forest-1234" returns only the
-- slug "tall-forest-1234". If there is no prefix returns the original string.
-- (`deployment.split(":").at(-1)!`; the split is never empty.)
def stripDeploymentTypePrefix (deployment : Str) : Str :=
  (splitOnChar ':' deployment).getLastD []

-- `adminKey.split(":")`: one part means no prefix, type "prod"; otherwise the
-- part before the first ":" (`parts.at(0)!`).
def deploymentTypeFromAdminKey (adminKey : Str) : Str :=
  let parts := splitOnChar ':' adminKey
  if parts.length = 1 then "prod".data else parts.headD []

-- `adminKey.split("|")`: one part means no embedded name; only prod admin
-- keys contain a deployment name.
def deploymentNameFromAdminKey (adminKey : Str) : Option Str :=
  let parts := splitOnChar '|' adminKey
  if parts.length = 1 then none
  else if deploymentTypeFromAdminKey adminKey ≠ "prod".data then none
  else some (stripDeploymentTypePrefix (parts.headD []))

/-! ## EnvFileEditor: gitignore editing -/

def ENV_VAR_FILE_PATH : Str := ".env.local".data

-- `changesToGitIgnore(existingFile)`: `null` input means no `.gitignore`
-- exists; the result is the new content, or `null` when no change is needed.
def changesToGitIgnore (existingFile : Option Str) : Option Str :=
  match existingFile with
  | none => some (ENV_VAR_FILE_PATH ++ "\n".data)
  | some f =>
    let gitIgnoreLines := splitOnChar '\n' f
    let envVarFileIgnored := gitIgnoreLines.any (fun line =>
      line == ".env.local".data ||
      line == ".env.*".data ||
      line == ".env*".data ||
      line == "*.local".data ||
      line == ".env*.local".data)
    if !envVarFileIgnored then
      some (f ++ "\n".data ++ ENV_VAR_FILE_PATH ++ "\n".data)
    else
      none

/-- The predicate of `changesToGitIgnore` holds on the appended tail
`".env.local\n"`: its lines are `.env.local` and the empty line. -/
theorem envVarTail_any_eq_true :
    ((splitOnChar '\n' (ENV_VAR_FILE_PATH ++ "\n".data)).any (fun line =>
      line == ".env.local".data ||
      line == ".env.*".data ||
      line == ".env*".data ||
      line == "*.local".data ||
      line == ".env*.local".data)) = true := by decide

/-- Applying `changesToGitIgnore` to any content it itself produced by
appending returns `none`: the produced content always has a line equal to
`.env.local`. -/
theorem changesToGitIgnore_append_none (f : Str) :
    changesToGitIgnore (some (f ++ "\n".data ++ ENV_VAR_FILE_PATH ++ "\n".data))
      = none := by
  have hcat : f ++ "\n".data ++ ENV_VAR_FILE_PATH ++ "\n".data
      = f ++ '\n' :: (ENV_VAR_FILE_PATH ++ "\n".data) := by
    simp [ENV_VAR_FILE_PATH]
  rw [hcat]
  simp only [changesToGitIgnore]
  rw [splitOnChar_append_sep, List.any_append, envVarTail_any_eq_true]
  simp

/-- C9: `changesToGitIgnore` is idempotent: whenever it returns a non-null
new content, applying it to that content returns `null` (the result always
contains a line exactly equal to `.env.local`, so a second application never
appends again). -/
theorem changesToGitIgnore_idempotent (existingFile : Option Str) (c : Str)
    (h : changesToGitIgnore existingFile = some c) :
    changesToGitIgnore (some c) = none := by
  cases existingFile with
  | none =>
    simp only [changesToGitIgnore, Option.some.injEq] at h
    subst h
    decide
  | some f =>
    simp only [changesToGitIgnore] at h
    split at h
    · injection h with h
      subst h
      exact changesToGitIgnore_append_none f
    · exact Option.noConfusion h

/-- Witness for C9 at the concrete input `null`. -/
theorem changesToGitIgnore_idempotent_witness :
    changesToGitIgnore (some ".env.local\n".data) = none :=
  changesToGitIgnore_idempotent none ".env.local\n".data (by decide)

/-- C2 (counterexample): on the input `"node_modules\n"` the code returns
`"node_modules\n\n.env.local\n"` (it unconditionally inserts a newline before
the appended path), not the claimed `"node_modules\n.env.local\n"`. -/
theorem changesToGitIgnore_nodeModules_counterexample :
    changesToGitIgnore (some "node_modules\n".data)
      ≠ some "node_modules\n.env.local\n".data := by decide

/-- C2 (amended): `changesToGitIgnore(null)` returns `".env.local\n"`;
`changesToGitIgnore("*.local\n")` returns `null`; and
`changesToGitIgnore("node_modules\n")` returns `"node_modules\n\n.env.local\n"`
(the appended text always starts with its own newline). -/
theorem changesToGitIgnore_concrete_results :
    changesToGitIgnore none = some ".env.local\n".data
    ∧ changesToGitIgnore (some "*.local\n".data) = none
    ∧ changesToGitIgnore (some "node_modules\n".data)
        = some "node_modules\n\n.env.local\n".data := by
  refine ⟨by decide, by decide, by decide⟩

/-- C5: `deploymentNameFromAdminKey` returns `null` when the key has no `|`
separator or its type is not `"prod"`; otherwise it returns the last
colon-delimited segment of the portion before the first `|`; and on the
prod-type key `"myapp-1234|rest"` it returns `"myapp-1234"`. -/
theorem deploymentNameFromAdminKey_spec (key : Str) :
    (('|' ∉ key ∨ deploymentTypeFromAdminKey key ≠ "prod".data) →
        deploymentNameFromAdminKey key = none)
    ∧ ('|' ∈ key → deploymentTypeFromAdminKey key = "prod".data →
        deploymentNameFromAdminKey key =
          some (specSubstringAfterLast ':' (specSubstringBeforeFirst '|' key)))
    ∧ deploymentNameFromAdminKey "myapp-1234|rest".data
        = some "myapp-1234".data := by
  refine ⟨?_, ?_, by decide⟩
  · rintro (h | h)
    · have hl := (splitOnChar_length_eq_one_iff '|' key).mpr h
      simp [deploymentNameFromAdminKey, hl]
    · by_cases hl : (splitOnChar '|' key).length = 1
      · simp [deploymentNameFromAdminKey, hl]
      · simp [deploymentNameFromAdminKey, hl, h]
  · intro hmem htype
    have hl : ¬ (splitOnChar '|' key).length = 1 := by
      rw [splitOnChar_length_eq_one_iff]
      simpa using hmem
    have hty : ¬ (deploymentTypeFromAdminKey key ≠ "prod".data) := by
      simp [htype]
    simp only [deploymentNameFromAdminKey, if_neg hl, if_neg hty,
      stripDeploymentTypePrefix, splitOnChar_headD_eq, splitOnChar_getLastD_eq]

/-- Witness for C5: a non-prod key with a `|` yields `null`, and a prod-type
key with an explicit type prefix yields the embedded name. -/
theorem deploymentNameFromAdminKey_spec_witness :
    deploymentNameFromAdminKey "dev:abc|rest".data = none
    ∧ deploymentNameFromAdminKey "prod:myapp-1234|rest".data
        = some (specSubstringAfterLast ':'
            (specSubstringBeforeFirst '|' "prod:myapp-1234|rest".data)) :=
  ⟨(deploymentNameFromAdminKey_spec _).1 (Or.inr (by decide)),
   (deploymentNameFromAdminKey_spec _).2.1 (by decide) (by decide)⟩

/-- C6: `deploymentTypeFromAdminKey` returns `"prod"` when the key has no `:`
and otherwise the substring before the first `:`; `stripDeploymentTypePrefix`
returns the substring after the last `:` (the whole string when no `:`). -/
theorem deploymentTypeAndStrip_spec (key s : Str) :
    (':' ∉ key → deploymentTypeFromAdminKey key = "prod".data)
    ∧ (':' ∈ key →
        deploymentTypeFromAdminKey key = specSubstringBeforeFirst ':' key)
    ∧ stripDeploymentTypePrefix s = specSubstringAfterLast ':' s
    ∧ (':' ∉ s → stripDeploymentTypePrefix s = s) := by
  refine ⟨?_, ?_, ?_, ?_⟩
  · intro h
    simp [deploymentTypeFromAdminKey, (splitOnChar_length_eq_one_iff ':' key).mpr h]
  · intro h
    have hl : ¬ (splitOnChar ':' key).length = 1 := by
      rw [splitOnChar_length_eq_one_iff]
      simpa using h
    simp only [deploymentTypeFromAdminKey, if_neg hl, splitOnChar_headD_eq]
  · simp only [stripDeploymentTypePrefix, splitOnChar_getLastD_eq]
  · intro h
    simp [stripDeploymentTypePrefix, splitOnChar_of_not_mem h]

/-- Witness for C6 at concrete keys with and without a `:` separator. -/
theorem deploymentTypeAndStrip_spec_witness :
    deploymentTypeFromAdminKey "myapp-1234|rest".data = "prod".data
    ∧ deploymentTypeFromAdminKey "preview:x".data
        = specSubstringBeforeFirst ':' "preview:x".data
    ∧ stripDeploymentTypePrefix "no-colon".data = "no-colon".data :=
  ⟨(deploymentTypeAndStrip_spec "myapp-1234|rest".data []).1 (by decide),
   (deploymentTypeAndStrip_spec "preview:x".data []).2.1 (by decide),
   (deploymentTypeAndStrip_spec [] "no-colon".data).2.2.2 (by decide)⟩

/-! ## The deploy command

The command's action is modelled as a function from the command options and
an oracle of the external collaborators' answers (`World`) to the list of
observable effects it performs (`List Event`) and its outcome. `ctx.crash(n)`
terminates the process, so it ends the trace with `Outcome.crashed n`.
-/

/-- A JavaScript value of type `string | undefined | null` as it occurs in
option records: commander leaves an unset option `undefined`, never `null`. -/
inductive JStr where
  | undef
  | null
  | str (s : Str)
  deriving DecidableEq, Repr

/-- The value when set; `undefined` / `null` give `none`. -/
def JStr.toOption : JStr → Option Str
  | .str s => some s
  | _ => none

/-- The options record commander passes to the deploy action. Unset string
options are `none` (`undefined`); `yes` keeps `boolean | undefined` as
`Option Bool` because the code reads it with `??`; the other booleans are
only read for truthiness, so `undefined` is modelled as `false`;
`adminKey` keeps all three JavaScript cases because the code compares it
against `null`. -/
structure CmdOptions where
  verbose : Bool
  dryRun : Bool
  yes : Option Bool
  typecheck : Str
  codegen : Str
  cmd : Option Str
  cmdUrlEnvVarName : Option Str
  previewRun : Option Str
  previewCreate : Option Str
  previewName : Option Str
  checkBuildEnvironment : Str
  debugBundlePath : Option Str
  debug : Bool
  adminKey : JStr
  url : Option Str
  logDeploymentName : Bool
  deriving DecidableEq, Repr

/-- The dev/prod deployment-name pair returned by the credential fetch. -/
structure DeploymentNames where
  selected : Str
  configured : Option Str
  deriving DecidableEq, Repr

/-- The answers of the external collaborators during one invocation:
environment variables, `getConfiguredDeployment`, the CI branch name, the
two remote API calls, `suggestedEnvVarName`, the interactive prompt and the
spawned command's exit status. -/
structure World where
  envDeployKey : Option Str
  nonProdBuildEnvironment : Bool
  configuredDeployment : Option Str
  gitBranchFromEnvironment : Option Str
  claimedAdminKey : Str
  claimedInstanceUrl : Str
  prodAdminKey : Str
  prodUrl : Str
  prodDeploymentNames : Option DeploymentNames
  suggestedEnvVarName : Str
  promptShouldPush : Bool
  spawnStatus : Int
  deriving DecidableEq, Repr

/-- An observable effect of the deploy command. -/
inductive Event where
  | logError (msg : Str)
  | logFailure (msg : Str)
  | logMessage (msg : Str)
  | logFinishedStep (msg : Str)
  | logOutput (msg : Str)
  | showSpinner (msg : Str)
  | usageStateWarning
  | networkCall (endpoint : Str)
  | spawn (cmd urlVar url : Str)
  | confirmPrompt (msg : Str)
  | runPush (dryRun : Bool) (url : Str)
  | runFunctionAndLog (name : Str)
  | cliConflictError
  deriving DecidableEq, Repr

/-- How the invocation ended: normally, or by `ctx.crash(exitCode)`. -/
inductive Outcome where
  | ok
  | crashed (exitCode : Nat)
  deriving DecidableEq, Repr

/-- Modelled from the spec: the fixed name of the deploy-key environment
variable, imported by the code from `./lib/utils.js` (not part of the shown
files). -/
def CONVEX_DEPLOY_KEY_ENV_VAR_NAME : Str := "CONVEX_DEPLOY_KEY".data

/-- Message of the build-environment safety check (deploy.ts lines 147-152). -/
def buildEnvErrorMsg : Str :=
  "Detected a non-production build environment and \"".data
    ++ CONVEX_DEPLOY_KEY_ENV_VAR_NAME
    ++ "\" for a production Convex deployment.\n\n          This is probably unintentional.\n          ".data

/-- Message of the missing-configuration guard (deploy.ts lines 160-163). -/
def missingDeployKeyMsg : Str :=
  "Please set ".data ++ CONVEX_DEPLOY_KEY_ENV_VAR_NAME
    ++ " to a new key which you can find on the Convex dashboard for your production deployment.".data

/-- Message of the `--preview-name` deprecation error (deploy.ts lines 174-177). -/
def previewNameDeprecatedMsg : Str :=
  "The `--preview-name` flag has been deprecated in favor of `--preview-create`. Please re-run the command using `--preview-create` instead.".data

/-- Message when no preview name can be determined (deploy.ts lines 207-210). -/
def previewNameUndeterminedMsg : Str :=
  "`npx convex deploy` to a preview deployment could not determine the preview name. Provide one using `--preview-create`".data

/-- Failure message of `deploymentNameFromAdminKeyOrCrash`. -/
def adminKeyCrashMsg : Str :=
  "Please set ".data ++ CONVEX_DEPLOY_KEY_ENV_VAR_NAME
    ++ " to a new key which you can find on your Convex dashboard.".data

/-- The placeholder URL the dry-run preview flow substitutes. -/
def placeholderPreviewUrl : Str :=
  "https://<PREVIEW DEPLOYMENT>.convex.cloud".data

/-- The claim-preview-deployment API endpoint (`bigBrainAPI` url). -/
def claimPreviewEndpoint : Str := "claim_preview_deployment".data

/-- Name tag for the production credential fetch
(`fetchDeploymentCredentialsWithinCurrentProject`). -/
def fetchCredsEndpoint : Str :=
  "fetchDeploymentCredentialsWithinCurrentProject".data

/-- Spinner message of `runCommand` (deploy.ts lines 385-390). -/
def runningCmdMsg (cmd urlVar : Str) (dryRun : Bool) : Str :=
  "Running '".data ++ cmd ++ "' with environment variable \"".data ++ urlVar
    ++ "\" set...".data ++ (if dryRun then " [dry run]".data else [])

/-- Finished-step message of `runCommand` (deploy.ts lines 404-409). -/
def ranCmdMsg (cmd urlVar : Str) (dryRun : Bool) : Str :=
  (if dryRun then "Would have run".data else "Ran".data)
    ++ " \"".data ++ cmd ++ "\" with environment variable \"".data ++ urlVar
    ++ "\" set".data

/-- Failure message of `runCommand` on a non-zero exit status. -/
def cmdFailedMsg (cmd : Str) : Str :=
  "'".data ++ cmd ++ "' failed".data

/-- Dry-run message for the would-be preview claim. -/
def wouldClaimPreviewMsg (previewName : Str) : Str :=
  "Would have claimed preview deployment for \"".data ++ previewName ++ "\"".data

/-- Dry-run message for the would-be preview push. -/
def wouldDeployPreviewMsg (previewName : Str) : Str :=
  "Would have deployed Convex functions to preview deployment for \"".data
    ++ previewName ++ "\"".data

/-- Dry-run message for the would-be preview function run. -/
def wouldRunFunctionMsg (functionName : Str) : Str :=
  "Would have run function \"".data ++ functionName ++ "\"".data

/-- Spinner message before the preview push (deploy.ts line 264). -/
def previewDeployingMsg (url : Str) : Str :=
  "Deploying to ".data ++ url ++ "...".data

/-- Finished-step message after the preview push (deploy.ts line 266). -/
def previewDeployedMsg (url : Str) : Str :=
  "Deployed Convex functions to ".data ++ url

/-- Finished-step message after the preview function run. -/
def finishedRunningFunctionMsg (functionName : Str) : Str :=
  "Finished running function \"".data ++ functionName ++ "\"".data

/-- Spinner message before the production push (deploy.ts lines 350-353). -/
def prodDeployingMsg (url : Str) (dryRun : Bool) : Str :=
  "Deploying to ".data ++ url ++ "...".data
    ++ (if dryRun then " [dry run]".data else [])

/-- Finished-step message after the production push (deploy.ts lines 355-360). -/
def prodDeployedMsg (url : Str) (dryRun : Bool) : Str :=
  (if dryRun then "Would have deployed".data else "Deployed".data)
    ++ " Convex functions to ".data ++ url

/-- The informational message of `askToConfirmPush` (deploy.ts lines 420-434);
`chalk.bold` is presentation only and modelled as the identity. -/
def confirmInfoMsg (configured prodName envVar prodUrl : Str) : Str :=
  "You're currently developing against your dev deployment\n\n  ".data
    ++ configured
    ++ " (set in CONVEX_DEPLOYMENT)\n\nYour prod deployment ".data
    ++ prodName
    ++ " serves traffic at:\n\n  ".data
    ++ envVar ++ "=".data ++ prodUrl
    ++ "\n\nMake sure that your published client is configured with this URL (for instructions see https://docs.convex.dev/hosting)\n".data

/-- The interactive confirmation question of `askToConfirmPush`. -/
def confirmQuestionMsg (prodName : Str) : Str :=
  "Do you want to push your code to your prod deployment ".data ++ prodName
    ++ " now?".data

/-- `runCommand` (deploy.ts lines 370-410): no-op without `--cmd`; otherwise a
spinner, then (unless dry-run) a subprocess with the deployment URL injected
under `urlVar`, crashing on a non-zero status, then a finished step. -/
def runCommand (w : World) (cmdUrlEnvVarName cmd : Option Str) (dryRun : Bool)
    (url : Str) : List Event × Outcome :=
  match cmd with
  | none => ([], .ok)
  | some c =>
    let urlVar := match cmdUrlEnvVarName with
      | some v => v
      | none => w.suggestedEnvVarName
    let spinner := Event.showSpinner (runningCmdMsg c urlVar dryRun)
    if !dryRun then
      if w.spawnStatus ≠ 0 then
        ([spinner, Event.spawn c urlVar url, Event.logFailure (cmdFailedMsg c)],
         .crashed 1)
      else
        ([spinner, Event.spawn c urlVar url,
          Event.logFinishedStep (ranCmdMsg c urlVar dryRun)], .ok)
    else
      ([spinner, Event.logFinishedStep (ranCmdMsg c urlVar dryRun)], .ok)

/-- `deploymentNameFromAdminKeyOrCrash`: the events/outcome of the lookup and
the name (meaningless when crashed). -/
def deploymentNameFromAdminKeyOrCrash (adminKey : Str) :
    (List Event × Outcome) × Str :=
  match deploymentNameFromAdminKey adminKey with
  | some n => (([], .ok), n)
  | none => (([Event.logFailure adminKeyCrashMsg], .crashed 1), [])

/-- The optional `--log-deployment-name` tail shared by both flows. -/
def logDeploymentNameEvents (logDeploymentName : Bool) (adminKey : Str) :
    List Event × Outcome :=
  if logDeploymentName then
    let r := deploymentNameFromAdminKeyOrCrash adminKey
    match r.1.2 with
    | .ok => (r.1.1 ++ [Event.logOutput r.2], .ok)
    | .crashed n => (r.1.1, .crashed n)
  else ([], .ok)

/-- `handlePreview` (deploy.ts lines 187-292). The preview name is
`--preview-create` or the CI branch; dry-run narrates and returns; otherwise
the claim API is called, the local command run, the push performed, the
optional function run, and the name optionally logged. -/
def handlePreview (w : World) (options : CmdOptions)
    (_configuredDeployKey : Str) : List Event × Outcome :=
  match options.previewCreate.orElse (fun _ => w.gitBranchFromEnvironment) with
  | none => ([Event.logError previewNameUndeterminedMsg], .crashed 1)
  | some previewName =>
    if options.dryRun then
      let cmdRes := runCommand w options.cmdUrlEnvVarName options.cmd
        options.dryRun placeholderPreviewUrl
      match cmdRes.2 with
      | .crashed n =>
        ([Event.logFinishedStep (wouldClaimPreviewMsg previewName)] ++ cmdRes.1,
         .crashed n)
      | .ok =>
        ([Event.logFinishedStep (wouldClaimPreviewMsg previewName)] ++ cmdRes.1
          ++ [Event.logFinishedStep (wouldDeployPreviewMsg previewName)]
          ++ (match options.previewRun with
              | some f => [Event.logMessage (wouldRunFunctionMsg f)]
              | none => []), .ok)
    else
      let claimEv := Event.networkCall claimPreviewEndpoint
      let previewAdminKey := w.claimedAdminKey
      let previewUrl := w.claimedInstanceUrl
      let cmdRes := runCommand w options.cmdUrlEnvVarName options.cmd
        options.dryRun previewUrl
      match cmdRes.2 with
      | .crashed n => (claimEv :: cmdRes.1, .crashed n)
      | .ok =>
        let deployEvs := [Event.showSpinner (previewDeployingMsg previewUrl),
          Event.runPush false previewUrl,
          Event.logFinishedStep (previewDeployedMsg previewUrl)]
        let runEvs := match options.previewRun with
          | some f => [Event.runFunctionAndLog f,
              Event.logFinishedStep (finishedRunningFunctionMsg f)]
          | none => []
        let nameRes := logDeploymentNameEvents options.logDeploymentName
          previewAdminKey
        (claimEv :: (cmdRes.1 ++ deployEvs ++ runEvs ++ nameRes.1), nameRes.2)

/-- `askToConfirmPush` (deploy.ts lines 412-445): the informational message
and the interactive confirmation; the answer is the oracle's
`promptShouldPush`. -/
def askToConfirmPush (w : World) (configured prodName prodUrl : Str) :
    List Event × Bool :=
  ([Event.logMessage
      (confirmInfoMsg configured prodName w.suggestedEnvVarName prodUrl),
    Event.confirmPrompt (confirmQuestionMsg prodName)],
   w.promptShouldPush)

/-- The part of `handleProduction` after the confirmation gate (deploy.ts
lines 338-367): local command, spinner, push, finished step, optional name
logging. -/
def productionPushPhase (w : World) (options : CmdOptions) :
    List Event × Outcome :=
  let url := w.prodUrl
  let cmdRes := runCommand w options.cmdUrlEnvVarName options.cmd
    options.dryRun url
  match cmdRes.2 with
  | .crashed n => (cmdRes.1, .crashed n)
  | .ok =>
    let deployEvs := [Event.showSpinner (prodDeployingMsg url options.dryRun),
      Event.runPush options.dryRun url,
      Event.logFinishedStep (prodDeployedMsg url options.dryRun)]
    let nameRes := logDeploymentNameEvents options.logDeploymentName
      w.prodAdminKey
    (cmdRes.1 ++ deployEvs ++ nameRes.1, nameRes.2)

/-- `handleProduction` (deploy.ts lines 294-368): fetch credentials; when the
API reports a configured (dev) name, push only if it equals the selected prod
name, or `--yes` was given, or the interactive confirmation is accepted;
declining crashes with exit code 1; then the push phase. -/
def handleProduction (w : World) (options : CmdOptions) :
    List Event × Outcome :=
  let fetchEv := Event.networkCall fetchCredsEndpoint
  let gate : List Event × Bool :=
    match w.prodDeploymentNames with
    | some deploymentNames =>
      match deploymentNames.configured with
      | some configured =>
        if deploymentNames.selected = configured then ([], true)
        else
          match options.yes with
          | some b => ([], b)
          | none =>
            askToConfirmPush w configured deploymentNames.selected w.prodUrl
      | none => ([], true)
    | none => ([], true)
  if gate.2 then
    let r := productionPushPhase w options
    (fetchEv :: (gate.1 ++ r.1), r.2)
  else
    (fetchEv :: gate.1, .crashed 1)

/-- The deploy key visible after `storeAdminKeyEnvVar(cmdOptions.adminKey)`
followed by `readAdminKeyFromEnvVar() ?? null`. Modelled from the spec: an
explicit admin key supplied via flag is registered into the process
environment and later reads pick it up; otherwise the deploy-key environment
variable is read. -/
def configuredDeployKey (w : World) (options : CmdOptions) : Option Str :=
  options.adminKey.toOption.orElse (fun _ => w.envDeployKey)

/-- The deploy command's action callback (deploy.ts lines 117-185):
build-environment safety check, missing-configuration guard, usage warning,
then dispatch to the preview flow (rejecting the deprecated `--preview-name`)
or the production flow. -/
def deployAction (w : World) (options : CmdOptions) : List Event × Outcome :=
  let deployKey := configuredDeployKey w options
  let buildCheckTriggered :=
    (options.checkBuildEnvironment = "enable".data : Bool)
    && w.nonProdBuildEnvironment
    && (match deployKey with
        | some k => (deploymentTypeFromAdminKey k = "prod".data : Bool)
        | none => false)
  if buildCheckTriggered then
    ([Event.logError buildEnvErrorMsg], .crashed 1)
  else if w.configuredDeployment = none ∧ options.adminKey = JStr.null then
    ([Event.logFailure missingDeployKeyMsg], .crashed 1)
  else
    let usageEv := Event.usageStateWarning
    match deployKey with
    | some k =>
      if deploymentTypeFromAdminKey k = "preview".data then
        if options.previewName.isSome then
          ([usageEv, Event.logError previewNameDeprecatedMsg], .crashed 1)
        else
          let r := handlePreview w options k
          (usageEv :: r.1, r.2)
      else
        let r := handleProduction w options
        (usageEv :: r.1, r.2)
    | none =>
      let r := handleProduction w options
      (usageEv :: r.1, r.2)

/-- The whole command. Modelled from the spec: the CLI parser (an external
collaborator) rejects an invocation that supplies both of the mutually
exclusive options `--preview-create` and `--preview-name` (declared with
`.conflicts`) before the action callback runs, exiting with code 1. -/
def deploy (w : World) (options : CmdOptions) : List Event × Outcome :=
  if options.previewName.isSome && options.previewCreate.isSome then
    ([Event.cliConflictError], .crashed 1)
  else
    deployAction w options

/-- Whether an event is a remote API call. -/
def isNetworkCall : Event → Bool
  | .networkCall _ => true
  | _ => false

/-- The remote API calls of a trace. -/
def networkCalls (events : List Event) : List Event :=
  events.filter isNetworkCall

/-- Whether an event is a subprocess spawn. -/
def isSpawn : Event → Bool
  | .spawn _ _ _ => true
  | _ => false

/-- The subprocess spawns of a trace. -/
def spawns (events : List Event) : List Event :=
  events.filter isSpawn

/-- Whether an event is a code push. -/
def isRunPush : Event → Bool
  | .runPush _ _ => true
  | _ => false

/-- The code pushes of a trace. -/
def pushes (events : List Event) : List Event :=
  events.filter isRunPush

/-- Whether an event is an interactive confirmation prompt. -/
def isConfirmPrompt : Event → Bool
  | .confirmPrompt _ => true
  | _ => false

/-- The interactive confirmation prompts of a trace. -/
def confirmPrompts (events : List Event) : List Event :=
  events.filter isConfirmPrompt

/-- Whether an event is a post-deploy function invocation. -/
def isRunFunction : Event → Bool
  | .runFunctionAndLog _ => true
  | _ => false

/-- The post-deploy function invocations of a trace. -/
def functionCalls (events : List Event) : List Event :=
  events.filter isRunFunction

/-- Whether an event is user-facing narration (log output or spinner). -/
def isNarration : Event → Bool
  | .logError _ => true
  | .logFailure _ => true
  | .logMessage _ => true
  | .logFinishedStep _ => true
  | .logOutput _ => true
  | .showSpinner _ => true
  | _ => false

/-- The narration of a trace. -/
def stepNarration (events : List Event) : List Event :=
  events.filter isNarration

/-! ## EnvFileEditor: writeDeploymentEnvVar -/

def CONVEX_DEPLOYMENT_VAR_NAME : Str := "CONVEX_DEPLOYMENT".data

/-- The deployment target passed to `writeDeploymentEnvVar`. -/
structure DeploymentInfo where
  team : Str
  project : Str
  deploymentName : Str
  deriving DecidableEq, Repr

/-- The local files the editor touches: `.env.local` and `.gitignore`
(`none` = the file does not exist). -/
structure Fs where
  envLocal : Option Str
  gitignore : Option Str
  deriving DecidableEq, Repr

/-- `changesToEnvVarFile`. Its core, `changedEnvVarFile`, lives in
`./envvars.js` (not part of the shown files) and is taken as a parameter;
this function fixes the variable name, the value `"<type>:<name>"` and the
two comments. -/
def changesToEnvVarFile
    (changedEnvVarFile : Option Str → Str → Str → Str → Str → Option Str)
    (existingFile : Option Str) (deploymentType : Str)
    (d : DeploymentInfo) : Option Str :=
  let deploymentValue := deploymentType ++ ":".data ++ d.deploymentName
  let commentOnPreviousLine := "# Deployment used by `npx convex dev`".data
  let commentAfterValue :=
    "team: ".data ++ d.team ++ ", project: ".data ++ d.project
  changedEnvVarFile existingFile CONVEX_DEPLOYMENT_VAR_NAME deploymentValue
    commentAfterValue commentOnPreviousLine

/-- `gitIgnoreEnvVarFile`: reads `.gitignore` (empty string when absent),
applies `changesToGitIgnore`, writes when changed. Returns whether it wrote. -/
def gitIgnoreEnvVarFile (fs : Fs) : Fs × Bool :=
  let gitIgnoreContents := fs.gitignore.getD []
  match changesToGitIgnore (some gitIgnoreContents) with
  | some changed => ({ fs with gitignore := some changed }, true)
  | none => (fs, false)

/-- Result of `writeDeploymentEnvVar`: the files, the in-process value of
`CONVEX_DEPLOYMENT` after the call, and the returned `wroteToGitIgnore`. -/
structure WriteDeploymentResult where
  fs : Fs
  convexDeploymentEnvVar : Option Str
  wroteToGitIgnore : Bool
  deriving DecidableEq, Repr

/-- `writeDeploymentEnvVar` (deployment library lines 479-502): computes the
change to `.env.local`, always updates `process.env[CONVEX_DEPLOYMENT]` to
`"<type>:<name>"`, and only on a computed change writes the file and updates
the gitignore. -/
def writeDeploymentEnvVar
    (changedEnvVarFile : Option Str → Str → Str → Str → Str → Option Str)
    (fs : Fs) (deploymentType : Str)
    (deployment : DeploymentInfo) : WriteDeploymentResult :=
  let existingFile := fs.envLocal
  let changedFile :=
    changesToEnvVarFile changedEnvVarFile existingFile deploymentType deployment
  let envVar := some (deploymentType ++ ":".data ++ deployment.deploymentName)
  match changedFile with
  | some cf =>
    let g := gitIgnoreEnvVarFile { fs with envLocal := some cf }
    ⟨g.1, envVar, g.2⟩
  | none => ⟨fs, envVar, false⟩

/-! ## Concrete invocations used by witnesses and counterexamples -/

/-- The options record as commander produces it when no flags are given:
unset options are `undefined`, the `choices` options take their defaults. -/
def defaultOptions : CmdOptions where
  verbose := false
  dryRun := false
  yes := none
  typecheck := "try".data
  codegen := "enable".data
  cmd := none
  cmdUrlEnvVarName := none
  previewRun := none
  previewCreate := none
  previewName := none
  checkBuildEnvironment := "enable".data
  debugBundlePath := none
  debug := false
  adminKey := JStr.undef
  url := none
  logDeploymentName := false

/-- A baseline oracle for concrete runs. -/
def baseWorld : World where
  envDeployKey := none
  nonProdBuildEnvironment := false
  configuredDeployment := none
  gitBranchFromEnvironment := none
  claimedAdminKey := "preview:team:proj|key".data
  claimedInstanceUrl := "https://happy-animal-123.convex.cloud".data
  prodAdminKey := "prod-app-456|secret".data
  prodUrl := "https://prod-app-456.convex.cloud".data
  prodDeploymentNames := none
  suggestedEnvVarName := "CONVEX_URL".data
  promptShouldPush := true
  spawnStatus := 0

/-! ## C10 -/

/-- C10: every call to `writeDeploymentEnvVar` sets the in-process
`CONVEX_DEPLOYMENT` variable to `"<deploymentType>:<deploymentName>"`, even
when no change to `.env.local` is computed and the function returns
`wroteToGitIgnore = false` without touching any file. -/
theorem writeDeploymentEnvVar_sets_env
    (changedEnvVarFile : Option Str → Str → Str → Str → Str → Option Str)
    (fs : Fs) (deploymentType : Str) (deployment : DeploymentInfo) :
    (writeDeploymentEnvVar changedEnvVarFile fs deploymentType
        deployment).convexDeploymentEnvVar
      = some (deploymentType ++ ":".data ++ deployment.deploymentName)
    ∧ (changesToEnvVarFile changedEnvVarFile fs.envLocal deploymentType
          deployment = none →
        writeDeploymentEnvVar changedEnvVarFile fs deploymentType deployment
          = ⟨fs, some (deploymentType ++ ":".data ++ deployment.deploymentName),
              false⟩) := by
  constructor
  · rcases h : changesToEnvVarFile changedEnvVarFile fs.envLocal deploymentType
      deployment with _ | cf <;>
      simp [writeDeploymentEnvVar, h]
  · intro h
    simp [writeDeploymentEnvVar, h]

/-- Witness for C10 with an external editor that computes no change. -/
theorem writeDeploymentEnvVar_sets_env_witness :
    (writeDeploymentEnvVar (fun _ _ _ _ _ => none) ⟨none, none⟩ "dev".data
        ⟨"t".data, "p".data, "d1234".data⟩).convexDeploymentEnvVar
      = some ("dev".data ++ ":".data ++ "d1234".data)
    ∧ writeDeploymentEnvVar (fun _ _ _ _ _ => none) ⟨none, none⟩ "dev".data
        ⟨"t".data, "p".data, "d1234".data⟩
      = ⟨⟨none, none⟩, some ("dev".data ++ ":".data ++ "d1234".data), false⟩ :=
  ⟨(writeDeploymentEnvVar_sets_env _ _ _ _).1,
   (writeDeploymentEnvVar_sets_env _ _ _ _).2 rfl⟩

/-! ## C3 -/

/-- C3: with the build-environment check enabled (its default), a detected
non-production build environment and a configured deploy key of type
`"prod"`, the deploy action logs an error and crashes with exit code 1 —
its whole trace is that one log line, so nothing is resolved or pushed. -/
theorem deployAction_build_env_check (w : World) (options : CmdOptions)
    (k : Str)
    (hcheck : options.checkBuildEnvironment = "enable".data)
    (henv : w.nonProdBuildEnvironment = true)
    (hkey : configuredDeployKey w options = some k)
    (htype : deploymentTypeFromAdminKey k = "prod".data) :
    deployAction w options = ([Event.logError buildEnvErrorMsg], .crashed 1) := by
  simp [deployAction, hcheck, henv, hkey, htype]

/-- Witness for C3: a prod-type deploy key in a non-production build
environment. -/
theorem deployAction_build_env_check_witness :
    deployAction
      { baseWorld with nonProdBuildEnvironment := true,
                       envDeployKey := some "prodkey123".data }
      defaultOptions
      = ([Event.logError buildEnvErrorMsg], .crashed 1) :=
  deployAction_build_env_check _ _ "prodkey123".data (by decide) rfl (by decide)
    (by decide)

/-! ## C1 -/

/-- C1 (code bug): with the deploy-key environment variable absent, no
`--admin-key` flag (so the option is `undefined`, as commander produces) and
no configured deployment, the guard comparing the flag against `null` never
fires: the command ends normally, never logs the instructing failure message,
and proceeds to the production credential fetch instead of failing with exit
code 1. -/
theorem deploy_missing_key_guard_never_fires :
    (deploy baseWorld defaultOptions).2 = Outcome.ok
    ∧ Event.logFailure missingDeployKeyMsg ∉ (deploy baseWorld defaultOptions).1
    ∧ Event.networkCall fetchCredsEndpoint ∈ (deploy baseWorld defaultOptions).1 := by
  refine ⟨by decide, by decide, by decide⟩

/-! ## C4 -/

/-- The push phase never prompts. -/
theorem confirmPrompts_productionPushPhase (w : World) (options : CmdOptions) :
    confirmPrompts (productionPushPhase w options).1 = [] := by
  simp only [productionPushPhase, runCommand, logDeploymentNameEvents,
    deploymentNameFromAdminKeyOrCrash]
  rcases options.cmd with _ | c <;>
    rcases hb : options.dryRun with _ | _ <;>
      by_cases hs : w.spawnStatus ≠ 0 <;>
        rcases hl : options.logDeploymentName with _ | _ <;>
          rcases hn : deploymentNameFromAdminKey w.prodAdminKey with _ | n <;>
            simp [hs, hn, confirmPrompts, isConfirmPrompt]

/-- With no local command, the push phase contains the push. -/
theorem runPush_mem_productionPushPhase (w : World) (options : CmdOptions)
    (hcmd : options.cmd = none) :
    Event.runPush options.dryRun w.prodUrl ∈ (productionPushPhase w options).1 := by
  simp [productionPushPhase, runCommand, hcmd]

/-- C4: in the production flow, when the API reports both names and the
configured (dev) name is present: equal names skip the confirmation entirely;
differing names with `--yes` proceed without prompting; differing names
without `--yes` show the confirmation, and declining crashes with exit code 1
before any push. -/
theorem handleProduction_confirmation (w : World) (options : CmdOptions)
    (dn : DeploymentNames) (configured : Str)
    (hdn : w.prodDeploymentNames = some dn)
    (hconf : dn.configured = some configured) :
    (dn.selected = configured →
       handleProduction w options
         = (Event.networkCall fetchCredsEndpoint
              :: (productionPushPhase w options).1,
            (productionPushPhase w options).2)
       ∧ confirmPrompts (handleProduction w options).1 = []
       ∧ (options.cmd = none →
            Event.runPush options.dryRun w.prodUrl
              ∈ (handleProduction w options).1))
    ∧ (dn.selected ≠ configured → options.yes = some true →
       handleProduction w options
         = (Event.networkCall fetchCredsEndpoint
              :: (productionPushPhase w options).1,
            (productionPushPhase w options).2)
       ∧ confirmPrompts (handleProduction w options).1 = []
       ∧ (options.cmd = none →
            Event.runPush options.dryRun w.prodUrl
              ∈ (handleProduction w options).1))
    ∧ (dn.selected ≠ configured → options.yes = none →
         w.promptShouldPush = false →
       handleProduction w options
         = ([Event.networkCall fetchCredsEndpoint,
             Event.logMessage (confirmInfoMsg configured dn.selected
               w.suggestedEnvVarName w.prodUrl),
             Event.confirmPrompt (confirmQuestionMsg dn.selected)], .crashed 1)
       ∧ pushes (handleProduction w options).1 = []) := by
  refine ⟨?_, ?_, ?_⟩
  · intro hsel
    have hgate : handleProduction w options
        = (Event.networkCall fetchCredsEndpoint
              :: (productionPushPhase w options).1,
           (productionPushPhase w options).2) := by
      simp [handleProduction, hdn, hconf, hsel]
    refine ⟨hgate, ?_, ?_⟩
    · rw [hgate]
      simpa [confirmPrompts, isConfirmPrompt]
        using confirmPrompts_productionPushPhase w options
    · intro hcmd
      rw [hgate]
      exact List.mem_cons_of_mem _ (runPush_mem_productionPushPhase w options hcmd)
  · intro hsel hyes
    have hgate : handleProduction w options
        = (Event.networkCall fetchCredsEndpoint
              :: (productionPushPhase w options).1,
           (productionPushPhase w options).2) := by
      simp [handleProduction, hdn, hconf, hsel, hyes]
    refine ⟨hgate, ?_, ?_⟩
    · rw [hgate]
      simpa [confirmPrompts, isConfirmPrompt]
        using confirmPrompts_productionPushPhase w options
    · intro hcmd
      rw [hgate]
      exact List.mem_cons_of_mem _ (runPush_mem_productionPushPhase w options hcmd)
  · intro hsel hyes hprompt
    have hgate : handleProduction w options
        = ([Event.networkCall fetchCredsEndpoint,
            Event.logMessage (confirmInfoMsg configured dn.selected
              w.suggestedEnvVarName w.prodUrl),
            Event.confirmPrompt (confirmQuestionMsg dn.selected)], .crashed 1) := by
      simp [handleProduction, hdn, hconf, hsel, hyes, askToConfirmPush, hprompt]
    refine ⟨hgate, ?_⟩
    rw [hgate]
    simp [pushes, isRunPush]

/-- Witness for C4: differing names, no `--yes`, declined prompt. -/
theorem handleProduction_confirmation_witness :
    handleProduction
      { baseWorld with
          prodDeploymentNames := some ⟨"prod-app".data, some "dev-app".data⟩,
          promptShouldPush := false }
      defaultOptions
      = ([Event.networkCall fetchCredsEndpoint,
          Event.logMessage (confirmInfoMsg "dev-app".data "prod-app".data
            "CONVEX_URL".data "https://prod-app-456.convex.cloud".data),
          Event.confirmPrompt (confirmQuestionMsg "prod-app".data)],
         .crashed 1) :=
  ((handleProduction_confirmation
      { baseWorld with
          prodDeploymentNames := some ⟨"prod-app".data, some "dev-app".data⟩,
          promptShouldPush := false }
      defaultOptions ⟨"prod-app".data, some "dev-app".data⟩ "dev-app".data
      rfl rfl).2.2 (by decide) rfl rfl).1

/-! ## C7 -/

/-- The oracle of the preview runs used for C7: the claimed deployment URL
happens to equal the placeholder, so substituting the placeholder for the
deployment URL in the real flow's narration is the identity. -/
def previewWorld : World :=
  { baseWorld with
      envDeployKey := some "preview:team:proj|key".data,
      claimedInstanceUrl := placeholderPreviewUrl }

/-- Preview options with `--dry-run` and an explicit preview name. -/
def previewDryOptions : CmdOptions :=
  { defaultOptions with dryRun := true, previewCreate := some "branchy".data }

/-- The same preview options without `--dry-run`. -/
def previewRealOptions : CmdOptions :=
  { defaultOptions with previewCreate := some "branchy".data }

/-- C7 (counterexample): even when the real deployment URL literally equals
the placeholder — so substituting the placeholder for the deployment URL
changes nothing — the dry-run preview flow's narration differs from the real
flow's narration. -/
theorem handlePreview_dry_run_narration_counterexample :
    stepNarration
        (handlePreview previewWorld previewDryOptions
          "preview:team:proj|key".data).1
      ≠ stepNarration
          (handlePreview previewWorld previewRealOptions
            "preview:team:proj|key".data).1 := by decide

/-- C7 (amended): every dry-run invocation of the preview flow performs zero
network calls (in particular it never calls the claim-preview-deployment
API), spawns zero subprocesses, performs zero pushes and zero post-deploy
function invocations, while narrating the would-be steps. -/
theorem handlePreview_dry_run_no_effects (w : World) (options : CmdOptions)
    (k : Str) (h : options.dryRun = true) :
    networkCalls (handlePreview w options k).1 = []
    ∧ spawns (handlePreview w options k).1 = []
    ∧ pushes (handlePreview w options k).1 = []
    ∧ functionCalls (handlePreview w options k).1 = [] := by
  simp only [handlePreview, h, runCommand]
  rcases options.previewCreate.orElse (fun _ => w.gitBranchFromEnvironment)
    with _ | n <;>
    rcases options.cmd with _ | c <;>
      rcases options.previewRun with _ | f <;>
        simp [networkCalls, spawns, pushes, functionCalls, isNetworkCall,
          isSpawn, isRunPush, isRunFunction]

/-- Witness for C7's amended theorem at the concrete dry run. -/
theorem handlePreview_dry_run_no_effects_witness :
    networkCalls
        (handlePreview previewWorld previewDryOptions
          "preview:team:proj|key".data).1 = []
    ∧ spawns
        (handlePreview previewWorld previewDryOptions
          "preview:team:proj|key".data).1 = []
    ∧ pushes
        (handlePreview previewWorld previewDryOptions
          "preview:team:proj|key".data).1 = []
    ∧ functionCalls
        (handlePreview previewWorld previewDryOptions
          "preview:team:proj|key".data).1 = [] :=
  handlePreview_dry_run_no_effects previewWorld previewDryOptions
    "preview:team:proj|key".data rfl

/-! ## C8 -/

/-- C8: supplying both `--preview-name` and `--preview-create` is rejected by
the CLI parser before the action runs, so before any network call; and in the
preview flow the legacy `--preview-name` flag alone is a fatal error (exit
code 1) whose trace contains no network call, in particular none to the
claim-preview-deployment API. -/
theorem previewNameFlag_rejection (w : World) (options : CmdOptions)
    (k pn : Str) :
    (options.previewName.isSome = true → options.previewCreate.isSome = true →
       deploy w options = ([Event.cliConflictError], .crashed 1))
    ∧ (configuredDeployKey w options = some k →
       deploymentTypeFromAdminKey k = "preview".data →
       options.previewName = some pn →
       options.previewCreate = none →
       (deploy w options).2 = .crashed 1
       ∧ networkCalls (deploy w options).1 = []) := by
  constructor
  · intro h1 h2
    simp [deploy, h1, h2]
  · intro hkey htype hpn hpc
    have hnoconflict :
        (options.previewName.isSome && options.previewCreate.isSome) = false := by
      simp [hpc]
    simp only [deploy, hnoconflict, Bool.false_eq_true, if_false]
    have htrig :
        ((options.checkBuildEnvironment = "enable".data : Bool)
          && w.nonProdBuildEnvironment
          && (match configuredDeployKey w options with
              | some k => (deploymentTypeFromAdminKey k = "prod".data : Bool)
              | none => false)) = false := by
      rw [hkey]
      simp [htype]
    by_cases hguard : w.configuredDeployment = none ∧ options.adminKey = JStr.null
    · simp [deployAction, htrig, hguard, networkCalls, isNetworkCall]
    · simp [deployAction, htrig, hguard, hkey, htype, hpn, networkCalls,
        isNetworkCall]

/-- Witness for C8: both flags together, and the legacy flag alone under a
preview-type deploy key. -/
theorem previewNameFlag_rejection_witness :
    deploy baseWorld
        { defaultOptions with previewName := some "a".data,
                              previewCreate := some "b".data }
      = ([Event.cliConflictError], .crashed 1)
    ∧ ((deploy previewWorld
          { defaultOptions with previewName := some "legacy".data }).2
        = .crashed 1
      ∧ networkCalls
          (deploy previewWorld
            { defaultOptions with previewName := some "legacy".data }).1 = []) :=
  ⟨(previewNameFlag_rejection baseWorld
      { defaultOptions with previewName := some "a".data,
                            previewCreate := some "b".data } [] []).1 rfl rfl,
   (previewNameFlag_rejection previewWorld
      { defaultOptions with previewName := some "legacy".data }
      "preview:team:proj|key".data "legacy".data).2 (by decide) (by decide)
      rfl rfl⟩
